import Mathlib

/-!
Shallow embedding of the Diurnal Event and Moon-Phase Engine of
src/Matrix_Portal_Moon_Clock/code.py, together with theorems settling the
frozen claims about it. Pure fragments of the Python program become Lean
functions; fragments that can raise become functions into Except PyError.
Python floats carrying moon ages are embedded as exact rationals; epoch
seconds become integers.
-/

namespace MoonClock

/-- Runtime errors the embedded Python fragments can raise. -/
inductive PyError where
  | typeError
  | nameError
  | unboundLocal
  | attributeError
deriving DecidableEq

/-- SECONDS_PER_HOUR = 3600 (code.py line 53). -/
def SECONDS_PER_HOUR : Int := 3600

/-- HOURS_BETWEEN_SYNC = 1 (code.py line 52). -/
def HOURS_BETWEEN_SYNC : Int := 1

/-- The due test of the clock-sync scheduler,
NOW - LAST_SYNC > HOURS_BETWEEN_SYNC * SECONDS_PER_HOUR (code.py line 359). -/
def syncDue (now lastSync : Int) : Bool :=
  decide (now - lastSync > HOURS_BETWEEN_SYNC * SECONDS_PER_HOUR)

/-- The failed-sync advance LAST_SYNC += 30 * SECONDS_PER_HOUR
(code.py line 371; the comment on that line reads "30 minutes -> seconds"). -/
def failedSyncAdvance (lastSync : Int) : Int :=
  lastSync + 30 * SECONDS_PER_HOUR

/-- One day of astronomical data (class EarthData, code.py lines 171-232):
the moon age at midnight, the epoch second of midnight, and four optional
rise/set instants, any of which may be None. -/
structure EarthData where
  age : ℚ
  midnight : Int
  sunrise : Option Int
  sunset : Option Int
  moonrise : Option Int
  moonset : Option Int
deriving DecidableEq

/-- The retry budget, for _ in range(5), of the EarthData fetch loop
(code.py line 200). -/
def retryLimit : Nat := 5

/-- The body of the EarthData fetch loop (code.py lines 200-232): attempt i
either succeeds (the try block assigns every field and returns) or raises
(the except block sleeps and the loop continues with attempt i+1). When the
loop budget is exhausted the constructor falls through and returns with the
record fields never assigned, modelled as none. -/
def fetchLoop (attempt : Nat → Option EarthData) : Nat → Nat → Option EarthData
  | _, 0 => none
  | i, fuel + 1 =>
    match attempt i with
    | some r => some r
    | none => fetchLoop attempt (i + 1) fuel

/-- The whole fetch protocol of the EarthData constructor: run the retry loop
from attempt 0 with budget retryLimit (code.py lines 200-232). -/
def earthDataFetch (attempt : Nat → Option EarthData) : Option EarthData :=
  fetchLoop attempt 0 retryLimit

/-- Attribute access record.midnight on a possibly uninitialised record: when
the constructor fell through without assigning fields, the access raises
AttributeError (the accesses at code.py lines 374 and 379). -/
def getMidnight : Option EarthData → Except PyError Int
  | none => .error .attributeError
  | some r => .ok r.midnight

/-- The two-day window PERIOD = [TODAY, TOMORROW] (code.py lines 66-68). -/
structure Window where
  today : EarthData
  tomorrow : EarthData
deriving DecidableEq

/-- Number of parameters after self of the constructor signature
def init(self, datetime, utc_offset) (code.py line 183). -/
def earthDataInitParams : Nat := 2

/-- Number of positional arguments passed at the rollover re-fetch call
EarthData(time.localtime(), 24, UTC_OFFSET) (code.py line 376). -/
def rolloverCallArgs : Nat := 3

/-- The rollover step of the main loop (code.py lines 373-376): when
NOW >= PERIOD[TOMORROW].midnight, move the tomorrow record down to today and
re-fetch a fresh tomorrow record. The re-fetch call passes rolloverCallArgs
positional arguments to a constructor declared with earthDataInitParams
parameters; Python raises TypeError when the two disagree, before the
constructor body runs. The fetched argument stands for the record the data
source would have returned. -/
def rolloverStep (now : Int) (w : Window) (fetched : EarthData) :
    Except PyError Window :=
  if w.tomorrow.midnight ≤ now then
    if rolloverCallArgs = earthDataInitParams then
      .ok ⟨w.tomorrow, fetched⟩
    else
      .error .typeError
  else
    .ok w

/-- Python x % 1.0 for a nonnegative-modulus float operation: x - floor x,
always in [0, 1). -/
def pymod1 (x : ℚ) : ℚ := x - ⌊x⌋

/-- The phase interpolation AGE (code.py lines 387-392): direct interpolation
when PERIOD[TODAY].age < PERIOD[TOMORROW].age, otherwise the wraparound
formula that adds 1 to the tomorrow age before taking the delta. -/
def moonAge (ageToday ageTomorrow ratio : ℚ) : ℚ :=
  if ageToday < ageTomorrow then
    pymod1 (ageToday + (ageTomorrow - ageToday) * ratio)
  else
    pymod1 (ageToday + (ageTomorrow + 1 - ageToday) * ratio)

/-- One conditional of the next-event scan (code.py lines 407-412 and
416-421): if DAY.slot and BEST >= DAY.slot >= NOW then BEST = DAY.slot and
RISEN = isSet. A None slot is skipped by the truthiness test, as is a literal
zero timestamp. -/
def scanStep (now : Int) (isSet : Bool) (cand : Option Int)
    (s : Int × Option Bool) : Int × Option Bool :=
  match cand with
  | none => s
  | some v => if v ≠ 0 ∧ s.1 ≥ v ∧ v ≥ now then (v, some isSet) else s

/-- The scan over a list of (event-type, candidate) slots in program order. -/
def scanList (now : Int) :
    List (Bool × Option Int) → Int × Option Bool → Int × Option Bool
  | [], s => s
  | (t, c) :: rest, s => scanList now rest (scanStep now t c s)

/-- The next-event selector for one body (code.py lines 405-412 and 414-421):
seed the best value, then scan for DAY in reversed(PERIOD), checking the rise
then the set of tomorrow, then the rise then the set of today, keeping any
candidate that is at most the current best and at least NOW. The risen flag
starts out unassigned, modelled as none. -/
def nextEvent (now seed : Int) (tomRise tomSet todRise todSet : Option Int) :
    Int × Option Bool :=
  scanList now
    [(false, tomRise), (true, tomSet), (false, todRise), (true, todSet)]
    (seed, none)

/-- NEXT_MOON_EVENT and MOON_RISEN (code.py lines 405-412), seeded with
PERIOD[1].midnight + 100000. -/
def nextMoonEvent (now : Int) (w : Window) : Int × Option Bool :=
  nextEvent now (w.tomorrow.midnight + 100000)
    w.tomorrow.moonrise w.tomorrow.moonset w.today.moonrise w.today.moonset

/-- NEXT_SUN_EVENT and SUN_RISEN (code.py lines 414-421). -/
def nextSunEvent (now : Int) (w : Window) : Int × Option Bool :=
  nextEvent now (w.tomorrow.midnight + 100000)
    w.tomorrow.sunrise w.tomorrow.sunset w.today.sunrise w.today.sunset

/-- Python A or B on the two risen flags, where none models a name that was
never assigned: evaluating such a name raises NameError. The left operand is
evaluated first and short-circuits when true (code.py line 432). -/
def pyOrName : Option Bool → Option Bool → Except PyError Bool
  | none, _ => .error .nameError
  | some true, _ => .ok true
  | some false, none => .error .nameError
  | some false, some b => .ok b

/-- The per-tick layout choice (code.py lines 423-439), returning
(CENTER_X, MOON_Y, TIME_Y, EVENT_Y). Only the portrait branch reads
MOON_RISEN or SUN_RISEN. -/
def layoutStep (landscape : Bool) (moonRisen sunRisen : Option Bool) :
    Except PyError (Int × Int × Int × Int) :=
  if landscape then
    .ok (48, 0, 6, 26)
  else do
    let b ← pyOrName moonRisen sunRisen
    if b then pure (16, 0, 49, 38) else pure (16, 32, 6, 26)

/-- The broken-down local-time fields that display_event reads. -/
structure Tm where
  tm_hour : Int
  tm_min : Int
deriving DecidableEq

/-- time.localtime(event) on the CircuitPython time module (code.py line
146): an integer epoch is broken down by floor division (the board clock has
no timezone database), and when the argument is missing or None the
documented behaviour is to use the current time instead, so the current
clock reading nowClock is substituted for an absent event. -/
def pyLocaltime (nowClock : Int) : Option Int → Tm
  | none => ⟨(Int.fdiv nowClock 3600) % 24, (Int.fdiv nowClock 60) % 60⟩
  | some v => ⟨(Int.fdiv v 3600) % 24, (Int.fdiv v 60) % 60⟩

/-- The hour-string branch chain of display_event (code.py lines 161-165):
if tm_hour > 12 and PORTRAIT_MODE, elif tm_hour > 0. When neither branch
runs, the local name hour_string is never assigned and reading it on line 166
raises UnboundLocalError. -/
def hourString (portraitMode : Bool) (h : Int) : Except PyError String :=
  if h > 12 ∧ portraitMode then .ok (toString (h - 12))
  else if h > 0 then .ok (toString h)
  else .error .unboundLocal

/-- Zero padding of the minutes field to width two. -/
def pad2 (n : Int) : String :=
  if n < 10 then "0" ++ toString n else toString n

/-- display_event reduced to its engine content (code.py lines 145-166):
break the event instant into local time, the current clock standing in for
an absent instant, then build the hour:minute text. -/
def display_event (nowClock : Int) (portraitMode : Bool) (event : Option Int) :
    Except PyError String := do
  let ts := pyLocaltime nowClock event
  let hs ← hourString portraitMode ts.tm_hour
  pure (hs ++ ":" ++ pad2 ts.tm_min)

/-- The DIURNAL_EVENT dispatch chain (code.py lines 480-503): display the
slot bound to the counter, then step the counter down, wrapping 1 back to 8.
The produced text is returned for observation; an exception anywhere aborts
the tick before the counter changes. -/
def dispatchStep (nowClock : Int) (portraitMode : Bool) (d : Nat)
    (w : Window) : Except PyError (Option String × Nat) :=
  if d = 8 then do
    let s ← display_event nowClock portraitMode w.today.sunrise
    pure (some s, 7)
  else if d = 7 then do
    let s ← display_event nowClock portraitMode w.today.sunset
    pure (some s, 6)
  else if d = 6 then do
    let s ← display_event nowClock portraitMode w.today.moonrise
    pure (some s, 5)
  else if d = 5 then do
    let s ← display_event nowClock portraitMode w.today.moonset
    pure (some s, 4)
  else if d = 4 then do
    let s ← display_event nowClock portraitMode w.tomorrow.sunrise
    pure (some s, 3)
  else if d = 3 then do
    let s ← display_event nowClock portraitMode w.tomorrow.sunset
    pure (some s, 2)
  else if d = 2 then do
    let s ← display_event nowClock portraitMode w.tomorrow.moonrise
    pure (some s, 1)
  else if d = 1 then do
    let s ← display_event nowClock portraitMode w.tomorrow.moonset
    pure (some s, 8)
  else pure (none, d)

/-- The window slot bound to each counter value, in the order of the dispatch
chain (code.py lines 480-503). -/
def slotOf (d : Nat) (w : Window) : Option Int :=
  if d = 8 then w.today.sunrise
  else if d = 7 then w.today.sunset
  else if d = 6 then w.today.moonrise
  else if d = 5 then w.today.moonset
  else if d = 4 then w.tomorrow.sunrise
  else if d = 3 then w.tomorrow.sunset
  else if d = 2 then w.tomorrow.moonrise
  else if d = 1 then w.tomorrow.moonset
  else none

/-- A fetch-attempt trace on which every attempt raises. -/
def allAttemptsFail : Nat → Option EarthData := fun _ => none

/-- A sample daily record. -/
def sampleRecord : EarthData := ⟨0, 86400, none, none, none, none⟩

/-- A fetch-attempt trace that succeeds only on attempt k (counting from 0). -/
def succeedOnlyAt (k : Nat) : Nat → Option EarthData :=
  fun i => if i = k then some sampleRecord else none

-- THEOREMS -------------------------------------------------------------------

/-- C1: code bug. For every tick with NOW at or past the tomorrow midnight the
rollover fires inclusively, but the re-fetch call passes three positional
arguments to the two-parameter EarthData constructor, so the step raises
TypeError instead of installing a new tomorrow record and restoring the
window invariant claimed by the spec. -/
theorem C1_rollover_type_error (w : Window) (fetched : EarthData) (now : Int)
    (h : w.tomorrow.midnight ≤ now) :
    rolloverStep now w fetched = .error .typeError := by
  unfold rolloverStep
  rw [if_pos h, if_neg (by decide)]

/-- Witness for C1 at the exact boundary now = tomorrow.midnight. -/
theorem C1_rollover_type_error_witness :
    rolloverStep 86400
      ⟨⟨0, 0, none, none, none, none⟩, ⟨0, 86400, none, none, none, none⟩⟩
      ⟨0, 172800, none, none, none, none⟩ = .error .typeError :=
  C1_rollover_type_error _ _ _ (by decide)

/-- C2: code bug. A failed resync at LAST_SYNC = 0 advances LAST_SYNC by
30 * SECONDS_PER_HOUR = 108000 seconds, thirty hours rather than the thirty
minutes the claim and the adjacent code comment state; the backoff is not
smaller than the one-hour sync interval, the scheduler is not due again at
T + 30 min (nor at T + 31 h), and only becomes due after T + 111600 s. -/
theorem C2_backoff_thirty_hours :
    failedSyncAdvance 0 = 108000 ∧
    decide (30 * SECONDS_PER_HOUR < HOURS_BETWEEN_SYNC * SECONDS_PER_HOUR)
      = false ∧
    syncDue 1800 (failedSyncAdvance 0) = false ∧
    syncDue 111600 (failedSyncAdvance 0) = false ∧
    syncDue 111601 (failedSyncAdvance 0) = true := by
  decide

/-- C5 counterexample: at age_today = age_tomorrow = 0 and ratio = 1/2 the
code takes the wraparound branch and produces 1/2, not the value 0 that the
direct formula claimed for the equality case would give. -/
theorem C5_counterexample :
    moonAge 0 0 (1/2) = 1/2 ∧
    moonAge 0 0 (1/2) ≠ pymod1 (0 + ((0 : ℚ) - 0) * (1/2)) := by
  constructor <;> norm_num [moonAge, pymod1]

/-- C5 (amended): the interpolator uses the wraparound formula exactly when
age_tomorrow is at most age_today, the equality case included, and the direct
formula only when age_tomorrow strictly exceeds age_today. -/
theorem C5_branch_selection (ageToday ageTomorrow ratio : ℚ)
    (h0 : 0 ≤ ageToday) (h1 : ageToday < 1)
    (h2 : 0 ≤ ageTomorrow) (h3 : ageTomorrow < 1) :
    (ageTomorrow ≤ ageToday →
      moonAge ageToday ageTomorrow ratio =
        pymod1 (ageToday + (ageTomorrow + 1 - ageToday) * ratio)) ∧
    (ageToday < ageTomorrow →
      moonAge ageToday ageTomorrow ratio =
        pymod1 (ageToday + (ageTomorrow - ageToday) * ratio)) := by
  constructor
  · intro h
    rw [moonAge, if_neg (not_lt.mpr h)]
  · intro h
    rw [moonAge, if_pos h]

/-- Witness for C5: both branches at concrete ages. -/
theorem C5_branch_selection_witness :
    moonAge (1/2) (1/2) (1/3) =
      pymod1 ((1/2 : ℚ) + ((1/2) + 1 - (1/2)) * (1/3)) ∧
    moonAge 0 (1/2) (1/3) = pymod1 ((0 : ℚ) + ((1/2) - 0) * (1/3)) := by
  refine ⟨(C5_branch_selection (1/2) (1/2) (1/3) (by norm_num) (by norm_num)
      (by norm_num) (by norm_num)).1 (by norm_num),
    (C5_branch_selection 0 (1/2) (1/3) (by norm_num) (by norm_num)
      (by norm_num) (by norm_num)).2 (by norm_num)⟩

/-- C6 counterexample: the spec example miscomputes its own expression; the
wraparound interpolation at ages 9/10 and 1/10 with ratio 1/2 does not equal
19/20. -/
theorem C6_counterexample : moonAge (9/10) (1/10) (1/2) ≠ 19/20 := by
  norm_num [moonAge, pymod1]

/-- C6 (amended): the wraparound interpolation at age_today = 9/10,
age_tomorrow = 1/10, ratio = 1/2 yields (9/10 + (1/10 + 1 - 9/10) * (1/2))
mod 1 = 0, the halfway point of the wrap landing exactly on the new moon. -/
theorem C6_wraparound_midpoint : moonAge (9/10) (1/10) (1/2) = 0 := by
  norm_num [moonAge, pymod1]

/-- C9: code bug. The fetch loop retries exactly five attempts (a success on
attempt index 4 is returned, one on index 5 is never reached), but when all
five raise, the constructor falls through and returns with the record fields
never assigned instead of surfacing an error; the failure only resurfaces
later as AttributeError when the caller reads the midnight field. -/
theorem C9_retry_falls_through_silently :
    earthDataFetch allAttemptsFail = none ∧
    getMidnight (earthDataFetch allAttemptsFail) = .error .attributeError ∧
    earthDataFetch (succeedOnlyAt 4) = some sampleRecord ∧
    earthDataFetch (succeedOnlyAt 5) = none := by
  refine ⟨rfl, rfl, rfl, rfl⟩

/-- A single scan conditional never increases the best value. -/
theorem scanStep_fst_le (now : Int) (t : Bool) (c : Option Int)
    (s : Int × Option Bool) : (scanStep now t c s).1 ≤ s.1 := by
  cases c with
  | none => exact le_refl _
  | some v =>
    simp only [scanStep]
    split_ifs with h
    · exact h.2.1
    · exact le_refl _

/-- A single scan conditional either leaves the state alone or installs a
valid candidate together with its event type. -/
theorem scanStep_cases (now : Int) (t : Bool) (c : Option Int)
    (s : Int × Option Bool) :
    scanStep now t c s = s ∨
    ∃ v, c = some v ∧ v ≠ 0 ∧ s.1 ≥ v ∧ v ≥ now ∧
      scanStep now t c s = (v, some t) := by
  cases c with
  | none => exact Or.inl rfl
  | some v =>
    simp only [scanStep]
    split_ifs with h
    · exact Or.inr ⟨v, rfl, h.1, h.2.1, h.2.2, rfl⟩
    · exact Or.inl rfl

/-- The scan never increases the best value. -/
theorem scanList_fst_le (now : Int) (L : List (Bool × Option Int))
    (s : Int × Option Bool) : (scanList now L s).1 ≤ s.1 := by
  induction L generalizing s with
  | nil => exact le_refl _
  | cons hd rest ih =>
    obtain ⟨t, c⟩ := hd
    simp only [scanList]
    exact le_trans (ih (scanStep now t c s)) (scanStep_fst_le now t c s)

/-- After the scan, the best value is at most every valid candidate that was
scanned. -/
theorem scanList_fst_le_valid (now : Int) (L : List (Bool × Option Int))
    (s : Int × Option Bool) :
    ∀ t v, (t, some v) ∈ L → v ≠ 0 → now ≤ v → (scanList now L s).1 ≤ v := by
  induction L generalizing s with
  | nil => intro t v hmem; exact absurd hmem (List.not_mem_nil _)
  | cons hd rest ih =>
    obtain ⟨t0, c0⟩ := hd
    intro t v hmem h0 hn
    simp only [List.mem_cons] at hmem
    rcases hmem with heq | hmem
    · have hc : c0 = some v := (congrArg Prod.snd heq).symm
      subst hc
      have hstep : (scanStep now t0 (some v) s).1 ≤ v := by
        simp only [scanStep]
        split_ifs with h
        · exact le_refl v
        · have hlt : ¬ (s.1 ≥ v) := fun hge => h ⟨h0, hge, hn⟩
          exact le_of_lt (lt_of_not_ge hlt)
      simp only [scanList]
      exact le_trans (scanList_fst_le now rest _) hstep
    · simp only [scanList]
      exact ih (scanStep now t0 c0 s) t v hmem h0 hn

/-- After the scan, either the state is untouched, or the result records a
valid scanned candidate as the best value and its event type as the flag. -/
theorem scanList_cases (now : Int) (L : List (Bool × Option Int))
    (s : Int × Option Bool) :
    scanList now L s = s ∨
    ∃ t, (t, some (scanList now L s).1) ∈ L ∧
      (scanList now L s).2 = some t ∧
      (scanList now L s).1 ≠ 0 ∧ now ≤ (scanList now L s).1 := by
  induction L generalizing s with
  | nil => exact Or.inl rfl
  | cons hd rest ih =>
    obtain ⟨t0, c0⟩ := hd
    simp only [scanList]
    rcases scanStep_cases now t0 c0 s with hs | ⟨v, hc, h0, _, hn, hstep⟩
    · rw [hs]
      rcases ih s with h | ⟨t, hmem, h2, h0, hn⟩
      · exact Or.inl h
      · exact Or.inr ⟨t, List.mem_cons_of_mem _ hmem, h2, h0, hn⟩
    · rw [hstep]
      rcases ih (v, some t0) with h | ⟨t, hmem, h2, h0x, hnx⟩
      · rw [h]
        refine Or.inr ⟨t0, ?_, rfl, h0, hn⟩
        rw [hc]
        exact List.mem_cons_self _ _
      · exact Or.inr ⟨t, List.mem_cons_of_mem _ hmem, h2, h0x, hnx⟩

/-- Once the risen flag has been assigned, no later scan step unassigns it. -/
theorem scanList_snd_none (now : Int) (L : List (Bool × Option Int))
    (s : Int × Option Bool) (h : (scanList now L s).2 = none) : s.2 = none := by
  induction L generalizing s with
  | nil => exact h
  | cons hd rest ih =>
    obtain ⟨t0, c0⟩ := hd
    simp only [scanList] at h
    have hstep := ih (scanStep now t0 c0 s) h
    rcases scanStep_cases now t0 c0 s with hs | ⟨v, _, _, _, _, heq⟩
    · rw [hs] at hstep; exact hstep
    · rw [heq] at hstep; cases hstep

/-- If some scanned candidate is valid and at most the incoming best value,
the risen flag ends up assigned. -/
theorem scanList_snd_ne_none (now : Int) (L : List (Bool × Option Int))
    (s : Int × Option Bool)
    (hex : ∃ t v, (t, some v) ∈ L ∧ v ≠ 0 ∧ now ≤ v ∧ v ≤ s.1) :
    (scanList now L s).2 ≠ none := by
  induction L generalizing s with
  | nil =>
    obtain ⟨t, v, hmem, _⟩ := hex
    exact absurd hmem (List.not_mem_nil _)
  | cons hd rest ih =>
    obtain ⟨t0, c0⟩ := hd
    obtain ⟨t, v, hmem, h0, hn, hle⟩ := hex
    simp only [List.mem_cons] at hmem
    simp only [scanList]
    rcases scanStep_cases now t0 c0 s with hs | ⟨u, _, _, _, _, hstep⟩
    · rw [hs]
      rcases hmem with heq | hmem
      · have hc : c0 = some v := (congrArg Prod.snd heq).symm
        have hcond : v ≠ 0 ∧ s.1 ≥ v ∧ v ≥ now := ⟨h0, hle, hn⟩
        have hupd : scanStep now t0 c0 s = (v, some t0) := by
          rw [hc]
          simp only [scanStep]
          rw [if_pos hcond]
        have hs2 : s.2 = some t0 := by
          have := hs.symm.trans hupd
          exact (congrArg Prod.snd this)
        intro hnone
        have := scanList_snd_none now rest s hnone
        rw [hs2] at this
        cases this
      · exact ih s ⟨t, v, hmem, h0, hn, hle⟩
    · rw [hstep]
      intro hnone
      have := scanList_snd_none now rest _ hnone
      cases this

/-- C3: confirmed. Under the data-model invariant that every present
timestamp is positive and below the seed value, and provided at least one
candidate is at or after now, the selector returns a present candidate that
is at or after now and at most every such candidate, the risen flag is
assigned, a false flag means the selected timestamp is one of the rise slots,
and a true flag means it is one of the set slots. Instantiating the four
slots with the moon or the sun fields of the window gives the per-body
statement of the claim. -/
theorem C3_selector_earliest (now seed : Int)
    (tomRise tomSet todRise todSet : Option Int)
    (hb : ∀ v, tomRise = some v ∨ tomSet = some v ∨ todRise = some v ∨
      todSet = some v → 0 < v ∧ v < seed)
    (hex : ∃ v, (tomRise = some v ∨ tomSet = some v ∨ todRise = some v ∨
      todSet = some v) ∧ now ≤ v)
    (r : Int × Option Bool)
    (hr : r = nextEvent now seed tomRise tomSet todRise todSet) :
    (tomRise = some r.1 ∨ tomSet = some r.1 ∨ todRise = some r.1 ∨
      todSet = some r.1) ∧
    now ≤ r.1 ∧
    (∀ v, tomRise = some v ∨ tomSet = some v ∨ todRise = some v ∨
      todSet = some v → now ≤ v → r.1 ≤ v) ∧
    (r.2 = some false → tomRise = some r.1 ∨ todRise = some r.1) ∧
    (r.2 = some true → tomSet = some r.1 ∨ todSet = some r.1) ∧
    r.2 ≠ none := by
  subst hr
  unfold nextEvent
  obtain ⟨v0, hmem0, hn0⟩ := hex
  have hv0 := hb v0 hmem0
  have hne : (scanList now
      [(false, tomRise), (true, tomSet), (false, todRise), (true, todSet)]
      (seed, (none : Option Bool))).2 ≠ none := by
    apply scanList_snd_ne_none
    rcases hmem0 with h | h | h | h
    · exact ⟨false, v0, by rw [← h]; simp, ne_of_gt hv0.1, hn0,
        le_of_lt hv0.2⟩
    · exact ⟨true, v0, by rw [← h]; simp, ne_of_gt hv0.1, hn0,
        le_of_lt hv0.2⟩
    · exact ⟨false, v0, by rw [← h]; simp, ne_of_gt hv0.1, hn0,
        le_of_lt hv0.2⟩
    · exact ⟨true, v0, by rw [← h]; simp, ne_of_gt hv0.1, hn0,
        le_of_lt hv0.2⟩
  rcases scanList_cases now
      [(false, tomRise), (true, tomSet), (false, todRise), (true, todSet)]
      (seed, none) with heq | ⟨t, hmem, h2, h0r, hnr⟩
  · exact absurd (congrArg Prod.snd heq) hne
  · simp only [List.mem_cons, List.not_mem_nil, or_false, Prod.mk.injEq]
      at hmem
    refine ⟨?_, hnr, ?_, ?_, ?_, hne⟩
    · rcases hmem with ⟨_, h⟩ | ⟨_, h⟩ | ⟨_, h⟩ | ⟨_, h⟩
      exacts [Or.inl h.symm, Or.inr (Or.inl h.symm),
        Or.inr (Or.inr (Or.inl h.symm)), Or.inr (Or.inr (Or.inr h.symm))]
    · intro v hv hnv
      have hpos := hb v hv
      have hfloor := scanList_fst_le_valid now
        [(false, tomRise), (true, tomSet), (false, todRise), (true, todSet)]
        (seed, none)
      rcases hv with h | h | h | h
      · exact hfloor false v (by rw [← h]; simp) (ne_of_gt hpos.1) hnv
      · exact hfloor true v (by rw [← h]; simp) (ne_of_gt hpos.1) hnv
      · exact hfloor false v (by rw [← h]; simp) (ne_of_gt hpos.1) hnv
      · exact hfloor true v (by rw [← h]; simp) (ne_of_gt hpos.1) hnv
    · intro hfalse
      have ht : t = false := Option.some.inj (h2.symm.trans hfalse)
      rcases hmem with ⟨ht2, h⟩ | ⟨ht2, h⟩ | ⟨ht2, h⟩ | ⟨ht2, h⟩
      · exact Or.inl h.symm
      · exact Bool.noConfusion (ht2.symm.trans ht)
      · exact Or.inr h.symm
      · exact Bool.noConfusion (ht2.symm.trans ht)
    · intro htrue
      have ht : t = true := Option.some.inj (h2.symm.trans htrue)
      rcases hmem with ⟨ht2, h⟩ | ⟨ht2, h⟩ | ⟨ht2, h⟩ | ⟨ht2, h⟩
      · exact Bool.noConfusion (ht2.symm.trans ht)
      · exact Or.inl h.symm
      · exact Bool.noConfusion (ht2.symm.trans ht)
      · exact Or.inr h.symm

/-- Witness for C3: a window with a tomorrow rise at 900 and a today set at
600, observed at now = 500, selects 600 with the risen flag assigned. -/
theorem C3_selector_earliest_witness :
    500 ≤ (nextEvent 500 10000 (some 900) none none (some 600)).1 ∧
    (nextEvent 500 10000 (some 900) none none (some 600)).1 ≤ 600 ∧
    (nextEvent 500 10000 (some 900) none none (some 600)).2 ≠ none := by
  have h := C3_selector_earliest 500 10000 (some 900) none none (some 600)
    (by rintro v (h | h | h | h) <;> simp_all <;> omega)
    ⟨600, Or.inr (Or.inr (Or.inr rfl)), by omega⟩
    (nextEvent 500 10000 (some 900) none none (some 600)) rfl
  exact ⟨h.2.1, h.2.2.1 600 (Or.inr (Or.inr (Or.inr rfl))) (by omega),
    h.2.2.2.2.2⟩

/-- A polar-night window: all four sun timestamps absent, with the today
moonrise still ahead of the chosen observation time. -/
def polarWindow : Window :=
  ⟨⟨0, 100000, none, none, some 150000, none⟩,
   ⟨0, 186400, none, none, none, none⟩⟩

/-- C4: code bug. With all four sun timestamps absent the selector itself
returns its seed with the risen flag never assigned, exactly the no-event
outcome and with no error; but on the first tick in portrait orientation the
layout then evaluates MOON_RISEN or SUN_RISEN, and with the moon flag false
the unassigned sun flag raises NameError, so the tick does not complete. -/
theorem C4_polar_first_tick :
    nextSunEvent 140000 polarWindow = (286400, none) ∧
    nextMoonEvent 140000 polarWindow = (150000, some false) ∧
    layoutStep false (nextMoonEvent 140000 polarWindow).2
      (nextSunEvent 140000 polarWindow).2 = .error .nameError := by
  refine ⟨rfl, rfl, rfl⟩

/-- A window with every rise and set timestamp absent. -/
def allNoneWindow : Window :=
  ⟨⟨0, 0, none, none, none, none⟩, ⟨0, 86400, none, none, none, none⟩⟩

/-- C7 counterexample: with the today sunrise absent and the clock reading
18000 (local time 5:00), the dispatch at counter 8 is not a skippable no-op:
time.localtime substitutes the current time for the absent timestamp, so the
current clock 5:00 is emitted as if it were the event, instead of nothing
being emitted. The counter does advance to 7. -/
theorem C7_counterexample :
    dispatchStep 18000 false 8 allNoneWindow = .ok (some "5:00", 7) ∧
    dispatchStep 18000 false 8 allNoneWindow ≠ .ok (none, 7) := by
  have h1 : dispatchStep 18000 false 8 allNoneWindow
      = .ok (some "5:00", 7) := rfl
  refine ⟨h1, ?_⟩
  rw [h1]
  intro h
  simp at h

/-- C7 (amended): on a tick whose rotation slot is bound to an absent
timestamp, no error is raised (provided the current local hour is nonzero,
the hour-zero formatting failure being an independent defect that hits
present timestamps just the same) and the rotation counter still advances by
exactly one, wrapping 1 back to 8; the emission, however, is not skipped:
the current clock time is formatted and displayed in place of the absent
event. -/
theorem C7_none_slot_emits_clock (nowClock : Int) (portraitMode : Bool)
    (d : Nat) (w : Window) (hd1 : 1 ≤ d) (hd8 : d ≤ 8)
    (hslot : slotOf d w = none)
    (hh : (Int.fdiv nowClock 3600) % 24 ≠ 0) :
    ∃ s, display_event nowClock portraitMode none = .ok s ∧
      dispatchStep nowClock portraitMode d w =
        .ok (some s, if d = 1 then 8 else d - 1) := by
  have hpos : 0 < (Int.fdiv nowClock 3600) % 24 := by
    have h24 := Int.emod_nonneg (Int.fdiv nowClock 3600)
      (by norm_num : (24 : Int) ≠ 0)
    omega
  have hht : ∃ t, hourString portraitMode ((Int.fdiv nowClock 3600) % 24)
      = .ok t := by
    by_cases h1 : (Int.fdiv nowClock 3600) % 24 > 12 ∧ portraitMode = true
    · exact ⟨_, by unfold hourString; rw [if_pos h1]⟩
    · exact ⟨_, by unfold hourString; rw [if_neg h1, if_pos hpos]⟩
  obtain ⟨t, ht⟩ := hht
  have hdisp : display_event nowClock portraitMode none =
      .ok (t ++ ":" ++ pad2 ((Int.fdiv nowClock 60) % 60)) := by
    have hdef : display_event nowClock portraitMode none =
        Except.bind (hourString portraitMode ((Int.fdiv nowClock 3600) % 24))
          (fun u => Except.ok (u ++ ":" ++
            pad2 ((Int.fdiv nowClock 60) % 60))) := rfl
    rw [hdef, ht]
    rfl
  refine ⟨_, hdisp, ?_⟩
  interval_cases d <;>
    (simp [slotOf] at hslot; simp [dispatchStep, hslot, hdisp]; try rfl)

/-- Witness for C7 at counter 1 of an all-absent window with the clock at
local time 5:00: the emission succeeds and the counter wraps to 8. -/
theorem C7_none_slot_emits_clock_witness :
    ∃ s, display_event 18000 false none = .ok s ∧
      dispatchStep 18000 false 1 allNoneWindow = .ok (some s, 8) := by
  have h := C7_none_slot_emits_clock 18000 false 1 allNoneWindow
    (by decide) (by decide) (by decide) (by decide)
  simpa using h

/-- C8: confirmed. When a today timestamp and a tomorrow timestamp are
exactly equal and at or after now, the scan, seeded at
tomorrow.midnight + 100000 and accepting any candidate at most the current
best, processes tomorrow first and today last, so the today slot overwrites
the equal tomorrow slot: with the tomorrow moonset and the today moonrise
equal, the selector reports the value with the risen flag of the today rise,
not of the tomorrow set. -/
theorem C8_tie_today_wins (w : Window) (now v : Int)
    (hv0 : v ≠ 0) (hn : now ≤ v) (hs : v < w.tomorrow.midnight + 100000)
    (hTomRise : w.tomorrow.moonrise = none)
    (hTomSet : w.tomorrow.moonset = some v)
    (hTodRise : w.today.moonrise = some v)
    (hTodSet : w.today.moonset = none) :
    nextMoonEvent now w = (v, some false) := by
  unfold nextMoonEvent nextEvent
  rw [hTomRise, hTomSet, hTodRise, hTodSet]
  simp only [scanList, scanStep]
  rw [if_pos (show v ≠ 0 ∧ w.tomorrow.midnight + 100000 ≥ v ∧ v ≥ now from
    ⟨hv0, le_of_lt hs, hn⟩)]
  rw [if_pos (show v ≠ 0 ∧ v ≥ v ∧ v ≥ now from ⟨hv0, le_refl v, hn⟩)]

/-- Witness for C8 at a tie value of 500 observed at now = 100. -/
theorem C8_tie_today_wins_witness :
    nextMoonEvent 100
      ⟨⟨0, 0, none, none, some 500, none⟩,
       ⟨0, 86400, none, none, none, some 500⟩⟩ = (500, some false) :=
  C8_tie_today_wins _ 100 500 (by decide) (by decide) (by decide)
    rfl rfl rfl rfl

/-- C10: confirmed. For every event whose broken-down local time has hour 0,
neither branch of the hour-string chain of display_event runs, in portrait
orientation as in landscape, so the local name is never assigned and the
formatting step fails with UnboundLocalError instead of producing an
hour:minute string. -/
theorem C10_midnight_hour_unbound (nowClock : Int) (portraitMode : Bool)
    (v : Int) (h : (Int.fdiv v 3600) % 24 = 0) :
    display_event nowClock portraitMode (some v) = .error .unboundLocal := by
  unfold display_event pyLocaltime
  show Except.bind (hourString portraitMode ((Int.fdiv v 3600) % 24)) _
    = Except.error PyError.unboundLocal
  rw [h]
  rfl

/-- Witness for C10 at the epoch second 120, whose local time is 0:02. -/
theorem C10_midnight_hour_unbound_witness :
    display_event 18000 false (some 120) = .error .unboundLocal :=
  C10_midnight_hour_unbound 18000 false 120 (by decide)

end MoonClock
